import Mathlib

set_option maxRecDepth 100000

/-!
Verification of `research/combine-reports.py`: a report aggregator that reads
comma-separated experiment records from its input, skips blank lines, comment
lines and header lines, parses the remaining lines into 7-field float records,
sorts them by `avg_deviance` descending with a stable sort, and prints a fixed
header line followed by the sorted records.

Lines are modelled as `List Char` (one entry per Unicode code point, matching
Python's `str`).  Python `float` values are modelled exactly: a float is NaN,
+inf, -inf, -0.0, or a finite decimal `m / 10 ^ e` held as an integer mantissa
and a power-of-ten denominator in canonical form (no trailing factors of ten).
Values parsed from decimal text are kept exactly rather than rounded to
binary64; the overflow-to-infinity and underflow-to-zero behaviour of Python's
float conversion at the extremes of the double range is modelled by exact
threshold comparisons.  Comparison operators follow IEEE-754 semantics (every
comparison with NaN is false).  Only ASCII whitespace and digits are modelled.
-/

/-! ## Characters and line-level string operations -/

/-- ASCII decimal digit test (Python float parsing accepts only decimal digits). -/
def isDig (c : Char) : Bool := decide (48 ≤ c.toNat ∧ c.toNat ≤ 57)

/-- ASCII whitespace stripped by Python's `str.strip`: space, tab, LF, VT,
FF, CR and the file/group/record/unit separators. -/
def isPySpace (c : Char) : Bool :=
  decide (c.toNat = 32 ∨ (9 ≤ c.toNat ∧ c.toNat ≤ 13) ∨ (28 ≤ c.toNat ∧ c.toNat ≤ 31))

/-- ASCII whitespace stripped by Python's `float` around a numeric literal
(a strictly smaller set than `str.strip`'s: no 28-31 separators). -/
def isFloatSpace (c : Char) : Bool :=
  decide (c.toNat = 32 ∨ (9 ≤ c.toNat ∧ c.toNat ≤ 13))

/-- ASCII lower-casing, as used by Python's float parser to recognise
`inf` / `infinity` / `nan` case-insensitively. -/
def asciiLower (c : Char) : Char :=
  if 65 ≤ c.toNat ∧ c.toNat ≤ 90 then Char.ofNat (c.toNat + 32) else c

/-- `str.strip()`: drop leading and trailing whitespace. -/
def pyStrip (l : List Char) : List Char :=
  ((l.dropWhile isPySpace).reverse.dropWhile isPySpace).reverse

/-- `str.split(",")`: split on every comma, keeping empty pieces. -/
def splitComma : List Char → List (List Char)
  | [] => [[]]
  | c :: cs =>
    if c = ',' then [] :: splitComma cs
    else
      match splitComma cs with
      | [] => [[c]]
      | f :: r => (c :: f) :: r

/-- `str.startswith("#")`. -/
def startsHash : List Char → Bool
  | '#' :: _ => true
  | _ => false

/-- The literal suffix used by the header filter, `"avg_deviance"`. -/
def avgTail : List Char := "avg_deviance".toList

/-- The filter on stripped lines:
`if not line or line.startswith("#") or line.endswith("avg_deviance"): continue`. -/
def skipLine (l : List Char) : Bool :=
  l.isEmpty || startsHash l || decide (avgTail <:+ l)

/-! ## The float model -/

/-- Model of a Python `float` as produced by this program: NaN, the two
infinities, negative zero, or an exact finite decimal `n / 10 ^ e`. -/
inductive PyFloat where
  | nan : PyFloat
  | inf : PyFloat
  | ninf : PyFloat
  | nzero : PyFloat
  | fin : ℤ → ℕ → PyFloat
deriving DecidableEq, Repr

/-- Mantissa of a finite value (0 for the non-`fin` constructors). -/
def PyFloat.mant : PyFloat → ℤ
  | .fin n _ => n
  | _ => 0

/-- Power-of-ten exponent of a finite value. -/
def PyFloat.exp10 : PyFloat → ℕ
  | .fin _ e => e
  | _ => 0

/-- IEEE-754 `<`: false whenever either side is NaN; `-0.0` equals `0.0`;
finite values compare by cross-multiplied mantissas. -/
def pyLt : PyFloat → PyFloat → Bool
  | .nan, _ => false
  | _, .nan => false
  | .inf, _ => false
  | _, .inf => true
  | .ninf, .ninf => false
  | .ninf, _ => true
  | _, .ninf => false
  | a, b => decide (a.mant * 10 ^ b.exp10 < b.mant * 10 ^ a.exp10)

/-- IEEE-754 `<=`: false whenever either side is NaN. -/
def pyLe : PyFloat → PyFloat → Bool
  | .nan, _ => false
  | _, .nan => false
  | .inf, .inf => true
  | .inf, _ => false
  | _, .inf => true
  | .ninf, _ => true
  | _, .ninf => false
  | a, b => decide (a.mant * 10 ^ b.exp10 ≤ b.mant * 10 ^ a.exp10)

/-- Remove trailing factors of ten from a mantissa/exponent pair, keeping the
represented value `n / 10 ^ e` fixed.  This canonical form makes equality of
represented values coincide with structural equality. -/
def canon : ℕ → ℕ → ℕ × ℕ
  | n, 0 => (n, 0)
  | n, e + 1 => if n % 10 = 0 then canon (n / 10) e else (n, e + 1)

/-- Smallest decimal magnitude that Python's float conversion rounds up to
infinity: `2^1024 - 2^970`, half an ulp above the largest binary64 value. -/
def ovfB : ℕ := 2 ^ 1024 - 2 ^ 970

/-- Build the float for a parsed decimal with sign `neg`, digit value `m` and
decimal exponent `d` (so the magnitude is `m * 10 ^ d`), applying Python's
overflow-to-infinity and underflow-to-zero behaviour at the extremes. -/
def mkNum (neg : Bool) (m : ℕ) (d : ℤ) : PyFloat :=
  if m = 0 then (if neg then .nzero else .fin 0 0)
  else
    let p : ℕ × ℕ := if 0 ≤ d then (m * 10 ^ d.toNat, 0) else (m, (-d).toNat)
    if ovfB * 10 ^ p.2 ≤ p.1 then (if neg then .ninf else .inf)
    else if p.1 * 2 ^ 1075 ≤ 10 ^ p.2 then (if neg then .nzero else .fin 0 0)
    else
      let c := canon p.1 p.2
      .fin (if neg then -(c.1 : ℤ) else (c.1 : ℤ)) c.2

/-- Consume a maximal run of digits, allowing single underscores strictly
between digits (Python's numeric-literal underscores).  Returns the
accumulated value, the number of digits consumed, and the rest. -/
def digitGroup (v nd : ℕ) : List Char → ℕ × ℕ × List Char
  | [] => (v, nd, [])
  | c :: cs =>
    if isDig c then digitGroup (10 * v + (c.toNat - 48)) (nd + 1) cs
    else if c = '_' ∧ nd ≠ 0 then
      match cs with
      | d :: ds =>
        if isDig d then digitGroup (10 * v + (d.toNat - 48)) (nd + 1) ds
        else (v, nd, c :: cs)
      | [] => (v, nd, c :: cs)
    else (v, nd, c :: cs)

/-- Parse the exponent that follows `e` / `E`: an optional sign and at least
one digit, which must consume the whole rest of the field. -/
def parseExpPart (l : List Char) : Option ℤ :=
  let sr : Bool × List Char :=
    match l with
    | '+' :: r => (false, r)
    | '-' :: r => (true, r)
    | r => (false, r)
  let g := digitGroup 0 0 sr.2
  if g.2.1 ≠ 0 ∧ g.2.2 = [] then some (if sr.1 then -(g.1 : ℤ) else (g.1 : ℤ))
  else none

/-- Parse an unsigned decimal literal `[digits][.digits][(e|E)[±]digits]`
requiring at least one digit before the exponent, as Python's float parser. -/
def parseDecimal (r : List Char) (neg : Bool) : Option PyFloat :=
  let gi := digitGroup 0 0 r
  let gf : ℕ × ℕ × List Char :=
    match gi.2.2 with
    | '.' :: rest => digitGroup 0 0 rest
    | _ => (0, 0, gi.2.2)
  if gi.2.1 + gf.2.1 = 0 then none
  else
    let m := gi.1 * 10 ^ gf.2.1 + gf.1
    match gf.2.2 with
    | [] => some (mkNum neg m (0 - (gf.2.1 : ℤ)))
    | c :: rest =>
      if c = 'e' ∨ c = 'E' then
        match parseExpPart rest with
        | some ex => some (mkNum neg m (ex - (gf.2.1 : ℤ)))
        | none => none
      else none

/-- Parse the part after an optional sign: `inf`, `infinity`, `nan`
(case-insensitively) or a decimal literal. -/
def parseUnsigned (r : List Char) (neg : Bool) : Option PyFloat :=
  let low := r.map asciiLower
  if low = "inf".toList ∨ low = "infinity".toList then
    some (if neg then .ninf else .inf)
  else if low = "nan".toList then some .nan
  else parseDecimal r neg

/-- The whitespace stripping performed by `float` itself. -/
def floatStrip (l : List Char) : List Char :=
  ((l.dropWhile isFloatSpace).reverse.dropWhile isFloatSpace).reverse

/-- Python's `float(str)`: strip whitespace, take an optional sign, then an
infinity/NaN word or a decimal literal; anything else raises `ValueError`
(modelled as `none`). -/
def pyFloatOfChars (s : List Char) : Option PyFloat :=
  match floatStrip s with
  | [] => none
  | '+' :: r => parseUnsigned r false
  | '-' :: r => parseUnsigned r true
  | r => parseUnsigned r false

/-! ## Printing (`str(float)`) -/

/-- Digit-emitting loop for `natToChars`, structurally recursive on a fuel
bound so that it evaluates by kernel reduction. -/
def natToCharsAux : ℕ → ℕ → List Char → List Char
  | 0, _, acc => acc
  | fuel + 1, n, acc =>
    if n < 10 then Char.ofNat (48 + n) :: acc
    else natToCharsAux fuel (n / 10) (Char.ofNat (48 + n % 10) :: acc)

/-- Decimal digits of a natural number, most significant first (always
non-empty; `0` prints as `"0"`). -/
def natToChars (n : ℕ) : List Char := natToCharsAux (n + 1) n []

/-- The `e` fractional digits of `N / 10 ^ e`, left-padded with zeros. -/
def fracChars (N e : ℕ) : List Char :=
  List.replicate (e - (natToChars (N % 10 ^ e)).length) '0' ++ natToChars (N % 10 ^ e)

/-- Python's `str` on a float of this model.  Finite values print in fixed
decimal notation with at least one digit on each side of the point, so an
integral value like `30.0` prints as `"30.0"`; special values print as
`nan`, `inf`, `-inf` and `-0.0`, as in Python. -/
def pyRepr : PyFloat → List Char
  | .nan => "nan".toList
  | .inf => "inf".toList
  | .ninf => "-inf".toList
  | .nzero => "-0.0".toList
  | .fin n e =>
    let N := n.natAbs
    let core :=
      if e = 0 then natToChars N ++ ('.' :: ['0'])
      else natToChars (N / 10 ^ e) ++ '.' :: fracChars N e
    if n < 0 then '-' :: core else core

/-! ## Records and the program pipeline -/

/-- The `Experiment` dataclass of the source, one field per CSV column. -/
structure Experiment where
  min_deviation : PyFloat
  max_deviation : PyFloat
  default_volatility : PyFloat
  tau : PyFloat
  first_advantage : PyFloat
  rating_periods_per_day : PyFloat
  avg_deviance : PyFloat
deriving DecidableEq, Repr

/-- The record's fields in the fixed column order. -/
def fieldsOf (x : Experiment) : List PyFloat :=
  [x.min_deviation, x.max_deviation, x.default_volatility, x.tau,
   x.first_advantage, x.rating_periods_per_day, x.avg_deviance]

/-- The one error kind of the program: a non-skipped line that does not split
into exactly 7 comma-separated float fields (an uncaught exception that
terminates the run with a non-zero exit status). -/
inductive RunError where
  | malformedRecord : RunError
deriving DecidableEq, Repr

deriving instance DecidableEq for Except

/-- Parse one stripped, non-skipped line:
unpack `line.split(",")` into exactly 7 names and convert each with `float`. -/
def parseLine (s : List Char) : Option Experiment :=
  match splitComma s with
  | [f1, f2, f3, f4, f5, f6, f7] => do
    let v1 ← pyFloatOfChars f1
    let v2 ← pyFloatOfChars f2
    let v3 ← pyFloatOfChars f3
    let v4 ← pyFloatOfChars f4
    let v5 ← pyFloatOfChars f5
    let v6 ← pyFloatOfChars f6
    let v7 ← pyFloatOfChars f7
    some ⟨v1, v2, v3, v4, v5, v6, v7⟩
  | _ => none

/-- The input loop: strip each line, skip filtered lines, parse the rest in
order, failing fast on the first malformed record. -/
def processLines : List (List Char) → Except RunError (List Experiment)
  | [] => .ok []
  | l :: ls =>
    let s := pyStrip l
    if skipLine s then processLines ls
    else
      match parseLine s with
      | none => .error .malformedRecord
      | some x =>
        match processLines ls with
        | .error err => .error err
        | .ok xs => .ok (x :: xs)

/-- One step of the stable descending insertion: `x` moves past exactly those
records whose `avg_deviance` is IEEE-greater than its own. -/
def insertDesc (x : Experiment) : List Experiment → List Experiment
  | [] => [x]
  | y :: ys =>
    if pyLt x.avg_deviance y.avg_deviance then y :: insertDesc x ys
    else x :: y :: ys

/-- `experiments.sort(key=lambda e: e.avg_deviance, reverse=True)`: the stable
sort by `avg_deviance` descending. -/
def sortDesc : List Experiment → List Experiment
  | [] => []
  | x :: xs => insertDesc x (sortDesc xs)

/-- The fixed header line printed first. -/
def headerLine : List Char :=
  "min_deviation,max_deviation,default_volatility,tau,first_advantage,rating_periods_per_day,avg_deviance".toList

/-- Join parts with commas (the f-string of the output loop). -/
def joinComma : List (List Char) → List Char
  | [] => []
  | [x] => x
  | x :: xs => x ++ ',' :: joinComma xs

/-- One printed data line: the 7 fields in header order, comma-separated. -/
def renderLine (x : Experiment) : List Char :=
  joinComma ((fieldsOf x).map pyRepr)

/-- The whole program: the lines it prints, and the error that aborted it, if
any.  All printing happens after the entire input is consumed, so a failing
run prints nothing at all. -/
def combineReports (input : List (List Char)) : List (List Char) × Option RunError :=
  match processLines input with
  | .error err => ([], some err)
  | .ok xs => (headerLine :: (sortDesc xs).map renderLine, none)

/-! ## Digit and character lemmas -/

/-- Value of a digit string read most-significant-first, starting from `v`. -/
def digitsVal (v : ℕ) (l : List Char) : ℕ :=
  l.foldl (fun a c => 10 * a + (c.toNat - 48)) v

theorem digitsVal_nil (v : ℕ) : digitsVal v [] = v := rfl

theorem digitsVal_cons (v : ℕ) (c : Char) (l : List Char) :
    digitsVal v (c :: l) = digitsVal (10 * v + (c.toNat - 48)) l := rfl

theorem digitsVal_shift (v : ℕ) (l : List Char) :
    digitsVal v l = v * 10 ^ l.length + digitsVal 0 l := by
  induction l generalizing v with
  | nil => simp [digitsVal_nil]
  | cons c cs ih =>
    rw [digitsVal_cons, digitsVal_cons, ih, ih (10 * 0 + (c.toNat - 48))]
    ring_nf
    simp [List.length_cons, pow_succ]
    ring

theorem ne_of_toNat_ne {c d : Char} (h : c.toNat ≠ d.toNat) : c ≠ d := by
  intro hc; exact h (by rw [hc])

theorem digitGroup_nil (v nd : ℕ) : digitGroup v nd [] = (v, nd, []) := rfl

theorem splitComma_ne_nil (l : List Char) : splitComma l ≠ [] := by
  induction l with
  | nil => simp [splitComma]
  | cons c cs ih =>
    rw [splitComma]
    by_cases h : c = ','
    · simp [h]
    · simp only [h, if_false]
      match hm : splitComma cs with
      | [] => simp
      | f :: r => simp

theorem processLines_skip {l : List Char} (ls : List (List Char))
    (h : skipLine (pyStrip l) = true) : processLines (l :: ls) = processLines ls := by
  rw [processLines.eq_def]
  simp only [h, if_true]

theorem processLines_parse_none {l : List Char} (ls : List (List Char))
    (hs : skipLine (pyStrip l) = false) (hp : parseLine (pyStrip l) = none) :
    processLines (l :: ls) = .error .malformedRecord := by
  rw [processLines.eq_def]
  simp only [hs, hp, Bool.false_eq_true, if_false]

theorem processLines_parse_some {l : List Char} (ls : List (List Char))
    {x : Experiment} (hs : skipLine (pyStrip l) = false)
    (hp : parseLine (pyStrip l) = some x) :
    processLines (l :: ls)
      = match processLines ls with
        | .error err => .error err
        | .ok xs => .ok (x :: xs) := by
  rw [processLines.eq_def]
  simp only [hs, hp, Bool.false_eq_true, if_false]

theorem pyLt_le_total {a b : PyFloat} (ha : a ≠ .nan) (hb : b ≠ .nan)
    (h : pyLt a b = false) : pyLe b a = true := by
  cases a <;> cases b <;>
    simp_all only [pyLt, pyLe, PyFloat.mant, PyFloat.exp10, ne_eq,
      decide_eq_true_eq, decide_eq_false_iff_not, not_lt, not_true_eq_false]

theorem pyLe_of_lt {a b : PyFloat} (h : pyLt a b = true) : pyLe a b = true := by
  cases a <;> cases b <;>
    simp_all only [pyLt, pyLe, PyFloat.mant, PyFloat.exp10,
      decide_eq_true_eq, decide_eq_false_iff_not]
  all_goals exact le_of_lt h

/-- The descending adjacency relation the sorted output satisfies. -/
def descRel (a b : Experiment) : Prop :=
  pyLe b.avg_deviance a.avg_deviance = true

instance (a b : Experiment) : Decidable (descRel a b) := by
  unfold descRel
  infer_instance

theorem insertDesc_perm (x : Experiment) (l : List Experiment) :
    (insertDesc x l).Perm (x :: l) := by
  induction l with
  | nil => exact List.Perm.refl _
  | cons y ys ih =>
    rw [insertDesc]
    by_cases hlt : pyLt x.avg_deviance y.avg_deviance = true
    · rw [if_pos hlt]
      exact (ih.cons y).trans (List.Perm.swap x y ys)
    · rw [if_neg hlt]

theorem sortDesc_perm (l : List Experiment) : (sortDesc l).Perm l := by
  induction l with
  | nil => exact List.Perm.refl _
  | cons x xs ih =>
    rw [sortDesc]
    exact (insertDesc_perm x (sortDesc xs)).trans (ih.cons x)

theorem mem_sortDesc {l : List Experiment} {x : Experiment} :
    x ∈ sortDesc l ↔ x ∈ l :=
  (sortDesc_perm l).mem_iff

theorem insertDesc_head (x : Experiment) (l : List Experiment) :
    (insertDesc x l).head? = some x ∨ (insertDesc x l).head? = l.head? := by
  cases l with
  | nil => left; rfl
  | cons y ys =>
    rw [insertDesc]
    by_cases hlt : pyLt x.avg_deviance y.avg_deviance = true
    · rw [if_pos hlt]
      right
      rfl
    · rw [if_neg hlt]
      left
      rfl

theorem insertDesc_chain {x : Experiment} {l : List Experiment}
    (hx : x.avg_deviance ≠ .nan) (hl : ∀ y ∈ l, y.avg_deviance ≠ .nan)
    (hc : List.Chain' descRel l) : List.Chain' descRel (insertDesc x l) := by
  induction l with
  | nil => exact List.chain'_singleton x
  | cons y ys ih =>
    rw [insertDesc]
    by_cases hlt : pyLt x.avg_deviance y.avg_deviance = true
    · rw [if_pos hlt]
      have hys : List.Chain' descRel (insertDesc x ys) :=
        ih (fun z hz => hl z (List.mem_cons_of_mem _ hz)) hc.tail
      rw [List.chain'_cons']
      refine ⟨?_, hys⟩
      intro z hz
      rcases insertDesc_head x ys with hh | hh
      · rw [hh] at hz
        injection hz with hz
        subst hz
        exact pyLe_of_lt hlt
      · rw [hh] at hz
        rcases ys with _ | ⟨w, ws⟩
        · exact absurd hz (by simp)
        · have := List.chain'_cons.mp hc
          injection hz with hz
          subst hz
          exact this.1
    · rw [if_neg hlt]
      rw [List.chain'_cons]
      refine ⟨?_, hc⟩
      exact pyLt_le_total hx (hl y (List.mem_cons_self _ _)) (by simpa using hlt)

theorem sortDesc_chain {l : List Experiment}
    (hl : ∀ y ∈ l, y.avg_deviance ≠ .nan) : List.Chain' descRel (sortDesc l) := by
  induction l with
  | nil => exact List.chain'_nil
  | cons x xs ih =>
    rw [sortDesc]
    exact insertDesc_chain (hl x (List.mem_cons_self _ _))
      (fun y hy => hl y (mem_sortDesc.mp hy |> List.mem_cons_of_mem x))
      (ih (fun y hy => hl y (List.mem_cons_of_mem _ hy)))

theorem combineReports_ok {input : List (List Char)} {xs : List Experiment}
    (h : processLines input = .ok xs) :
    combineReports input = (headerLine :: (sortDesc xs).map renderLine, none) := by
  unfold combineReports
  rw [h]

theorem combineReports_err {input : List (List Char)} {err : RunError}
    (h : processLines input = .error err) :
    combineReports input = ([], some err) := by
  unfold combineReports
  rw [h]

theorem processLines_error_of_bad : ∀ {input : List (List Char)} {l : List Char},
    l ∈ input → skipLine (pyStrip l) = false → parseLine (pyStrip l) = none →
    processLines input = .error .malformedRecord := by
  intro input
  induction input with
  | nil => intro l hl; exact absurd hl (by simp)
  | cons a ls ih =>
    intro l hl hs hp
    rcases List.mem_cons.mp hl with rfl | hmem
    · exact processLines_parse_none ls hs hp
    · by_cases hsa : skipLine (pyStrip a) = true
      · rw [processLines_skip ls hsa]
        exact ih hmem hs hp
      · cases hpa : parseLine (pyStrip a) with
        | none => exact processLines_parse_none ls (by simpa using hsa) hpa
        | some x =>
          rw [processLines_parse_some ls (by simpa using hsa) hpa, ih hmem hs hp]

/-- A non-skipped line is malformed when it does not split into exactly 7
comma-separated fields, or some field is rejected by float conversion. -/
def badLine (s : List Char) : Prop :=
  (splitComma s).length ≠ 7 ∨ ∃ f ∈ splitComma s, pyFloatOfChars f = none

instance (s : List Char) : Decidable (badLine s) := by
  unfold badLine
  infer_instance

theorem parseLine_eq_none_iff {s : List Char} : parseLine s = none ↔ badLine s := by
  unfold parseLine badLine
  split
  · rename_i f1 f2 f3 f4 f5 f6 f7 heq
    rw [heq]
    constructor
    · intro h
      right
      simp only [bind] at h
      cases h1 : pyFloatOfChars f1 with
      | none => exact ⟨f1, by simp, h1⟩
      | some v1 =>
        rw [h1] at h
        cases h2 : pyFloatOfChars f2 with
        | none => exact ⟨f2, by simp, h2⟩
        | some v2 =>
          rw [h2] at h
          cases h3 : pyFloatOfChars f3 with
          | none => exact ⟨f3, by simp, h3⟩
          | some v3 =>
            rw [h3] at h
            cases h4 : pyFloatOfChars f4 with
            | none => exact ⟨f4, by simp, h4⟩
            | some v4 =>
              rw [h4] at h
              cases h5 : pyFloatOfChars f5 with
              | none => exact ⟨f5, by simp, h5⟩
              | some v5 =>
                rw [h5] at h
                cases h6 : pyFloatOfChars f6 with
                | none => exact ⟨f6, by simp, h6⟩
                | some v6 =>
                  rw [h6] at h
                  cases h7 : pyFloatOfChars f7 with
                  | none => exact ⟨f7, by simp, h7⟩
                  | some v7 =>
                    rw [h7] at h
                    exact absurd h (by simp)
    · intro h
      rcases h with h | ⟨f, hf, hnone⟩
      · simp at h
      · simp only [List.mem_cons, List.not_mem_nil, or_false] at hf
        simp only [bind]
        rcases hf with rfl | rfl | rfl | rfl | rfl | rfl | rfl <;>
          simp [hnone]
  · rename_i hne
    constructor
    · intro _
      left
      intro h7
      rcases hsp : splitComma s with
          _ | ⟨g1, _ | ⟨g2, _ | ⟨g3, _ | ⟨g4, _ | ⟨g5, _ | ⟨g6, _ | ⟨g7, _ | ⟨g8, tail⟩⟩⟩⟩⟩⟩⟩⟩ <;>
        first
          | exact hne g1 g2 g3 g4 g5 g6 g7 hsp
          | (rw [hsp] at h7; simp at h7)
    · intro _
      rfl

/-! ## Concrete inputs -/

/-- Input with a NaN sort key followed by a numeric one. -/
def cexInput : List (List Char) := ["0,0,0,0,0,0,nan".toList, "0,0,0,0,0,0,1".toList]

def zeroF : PyFloat := .fin 0 0

/-- The record parsed from `0,0,0,0,0,0,nan`. -/
def cexNanExp : Experiment := ⟨zeroF, zeroF, zeroF, zeroF, zeroF, zeroF, .nan⟩

/-- The record parsed from `0,0,0,0,0,0,1`. -/
def cexOneExp : Experiment := ⟨zeroF, zeroF, zeroF, zeroF, zeroF, zeroF, .fin 1 0⟩

/-- The example input of the design document: a header line and three records,
the last two tied on `avg_deviance`. -/
def exInput : List (List Char) :=
  [headerLine, "30,500,0.06,0.5,0,1,12.3".toList,
   "30,500,0.06,0.8,0,1,9.7".toList, "30,500,0.06,0.3,0,1,9.7".toList]

def exRec1 : Experiment :=
  ⟨.fin 30 0, .fin 500 0, .fin 6 2, .fin 5 1, .fin 0 0, .fin 1 0, .fin 123 1⟩

def exRec2 : Experiment :=
  ⟨.fin 30 0, .fin 500 0, .fin 6 2, .fin 8 1, .fin 0 0, .fin 1 0, .fin 97 1⟩

def exRec3 : Experiment :=
  ⟨.fin 30 0, .fin 500 0, .fin 6 2, .fin 3 1, .fin 0 0, .fin 1 0, .fin 97 1⟩

/-- A line exercising the full float grammar: NaN, infinities with mixed case
and sign, scientific notation, a sign prefix and whitespace padding. -/
def c10Line : List Char := "nan, inf ,-Infinity,1e3,+2.5,30,0".toList

/-- The record parsed from `c10Line`. -/
def c10Exp : Experiment :=
  ⟨.nan, .inf, .ninf, .fin 1000 0, .fin 25 1, .fin 30 0, .fin 0 0⟩

/-! ## Claims -/

/-- C1 (amended): for every input on which the program succeeds and whose
accepted records have no NaN `avg_deviance`, adjacent records `(a, b)` of the
output data section satisfy `a.avg_deviance >= b.avg_deviance` (IEEE `<=` of
`b` against `a`), and the data section renders exactly the sorted records. -/
theorem c1_sorted_descending (input : List (List Char)) (xs : List Experiment)
    (h : processLines input = .ok xs)
    (hnan : ∀ x ∈ xs, x.avg_deviance ≠ PyFloat.nan) :
    List.Chain' descRel (sortDesc xs) ∧
      (combineReports input).1.tail = (sortDesc xs).map renderLine := by
  refine ⟨sortDesc_chain hnan, ?_⟩
  rw [combineReports_ok h]
  rfl

/-- C1: witness of the amended claim on the design document's example. -/
theorem c1_sorted_descending_witness :
    List.Chain' descRel (sortDesc [exRec1, exRec2, exRec3]) ∧
      (combineReports exInput).1.tail = (sortDesc [exRec1, exRec2, exRec3]).map renderLine :=
  c1_sorted_descending exInput [exRec1, exRec2, exRec3] (by decide) (by decide)

/-- C1: counterexample to the claim as stated.  On the two-record input whose
first record has `avg_deviance = nan`, the program succeeds, the sort leaves
the NaN record first, and the adjacent pair violates
`a.avg_deviance >= b.avg_deviance` (every IEEE comparison on NaN is false). -/
theorem c1_counterexample :
    processLines cexInput = .ok [cexNanExp, cexOneExp] ∧
    (combineReports cexInput).2 = none ∧
    sortDesc [cexNanExp, cexOneExp] = [cexNanExp, cexOneExp] ∧
    ¬ List.Chain' descRel (sortDesc [cexNanExp, cexOneExp]) := by
  refine ⟨by decide, by decide, by decide, ?_⟩
  intro hchain
  rw [show sortDesc [cexNanExp, cexOneExp] = [cexNanExp, cexOneExp] by decide] at hchain
  exact absurd (List.chain'_cons.mp hchain).1 (by decide)

/-- C4: if any non-skipped input line fails to parse, the program prints
nothing at all, not even the header line (sorting and printing happen only
after the entire input is consumed). -/
theorem c4_no_partial_output (input : List (List Char)) (l : List Char)
    (hl : l ∈ input) (hs : skipLine (pyStrip l) = false)
    (hp : parseLine (pyStrip l) = none) :
    (combineReports input).1 = [] := by
  rw [combineReports_err (processLines_error_of_bad hl hs hp)]

/-- C4: witness: a malformed line flushes zero output lines. -/
theorem c4_no_partial_output_witness :
    (combineReports [headerLine, "x".toList]).1 = [] :=
  c4_no_partial_output [headerLine, "x".toList] "x".toList (by decide) (by decide)
    (by decide)

/-- C8: sorting permutes the accepted records without dropping, duplicating
or modifying any: the multiset of output records equals the multiset of
accepted input records. -/
theorem c8_multiset_preserved (input : List (List Char)) (xs : List Experiment)
    (h : processLines input = .ok xs) :
    ((sortDesc xs : Multiset Experiment)) = (xs : Multiset Experiment) :=
  Multiset.coe_eq_coe.mpr (sortDesc_perm xs)

/-- C8: witness on the design document's example. -/
theorem c8_multiset_preserved_witness :
    ((sortDesc [exRec1, exRec2, exRec3] : Multiset Experiment))
      = ([exRec1, exRec2, exRec3] : Multiset Experiment) :=
  c8_multiset_preserved exInput [exRec1, exRec2, exRec3] (by decide)

/-- C10: field parsing accepts the whole host float grammar, not only plain
decimal literals: a non-skipped 7-field line with `nan`, ` inf `,
`-Infinity`, scientific notation, a signed value and whitespace padding is
accepted and produces a record; in general any non-skipped line whose 7
fields all pass float conversion parses into a record without error. -/
theorem c10_full_float_grammar :
    (skipLine (pyStrip c10Line) = false ∧ processLines [c10Line] = .ok [c10Exp]) ∧
    (∀ s : List Char, (splitComma s).length = 7 →
      (∀ f ∈ splitComma s, pyFloatOfChars f ≠ none) →
      ∃ x, parseLine s = some x) := by
  refine ⟨⟨by decide, by decide⟩, ?_⟩
  intro s h7 hf
  cases hp : parseLine s with
  | none =>
    rcases parseLine_eq_none_iff.mp hp with h | ⟨f, hfm, hfn⟩
    · exact absurd h7 h
    · exact absurd hfn (hf f hfm)
  | some x => exact ⟨x, rfl⟩

/-- C10: witness: the grammar-exercising line parses into a record. -/
theorem c10_full_float_grammar_witness : ∃ x, parseLine c10Line = some x :=
  c10_full_float_grammar.2 c10Line (by decide) (by decide)
